import Mathlib

/-!
# Pollux Chat — quota-aware request controller, shallow embedding

A shallow embedding of the quota subsystem of the pollux-chat client
(`src/App.tsx` and its sibling variant), together with proofs about it:

* the per-model quota record (`QuotaInfo`) and its normalization
  (`normalizeQuota`, `getNextUtcMidnight`);
* the tolerant quota-error parser (`parseQuotaError`), including a faithful
  model of the three JavaScript regular expressions it uses;
* the quota store and its merge-then-normalize update (`updateQuota`);
* the fallback model scan (`fallbackScan` / `selectFallbackModel`), with a
  JavaScript `TypeError` modelled as an `Except` error;
* the send controller (`sendMessage`), the streaming loop (`processChunk`),
  user cancellation (`handleStop`) and the auto-retry poll tick
  (`autoRetryTick`).

Timestamps are `Int` milliseconds since the Unix epoch; `Date.now()` is an
explicit `now` parameter.  JavaScript `number | null` fields are `Option Int`;
nullish coalescing `a ?? b` is `Option.orElse`.  Code that can throw is
embedded as `Except String`.
-/

namespace Pollux

/-! ## Data model -/

/-- `QuotaInfo` from `App.tsx`: one stored quota record per model. -/
structure QuotaInfo where
  limit : Option Int
  used : Option Int
  remaining : Option Int
  resetAt : Option Int
  lastUpdated : Int
  deriving DecidableEq, Repr

/-- The quota store `Record<string, QuotaInfo>`, as a total map to `Option`. -/
abbrev QuotaStoreMap : Type := String → Option QuotaInfo

/-! ## UTC midnight and normalization -/

/-- `getNextUtcMidnight` from `App.tsx`:
`Date.UTC(now.getUTCFullYear(), now.getUTCMonth(), now.getUTCDate() + 1)`,
i.e. the start of the UTC calendar day following the one containing `now`.
This is the next multiple of 86 400 000 ms strictly above `now`: the
`Date.UTC` calendar arithmetic carries the `+ 1` through month and year
boundaries, so it is exactly UTC-day-number + 1, and `Int` division here is
floor division, matching the day-number computation on every epoch time. -/
def getNextUtcMidnight (now : Int) : Int :=
  (now / 86400000 + 1) * 86400000

/-- `normalizeQuota` from `App.tsx`.  `!quota.resetAt` is JavaScript falsiness:
it holds for `null` and for the number `0`, so both leave the record
untouched. -/
def normalizeQuota (now : Int) (q : QuotaInfo) : QuotaInfo :=
  match q.resetAt with
  | none => q
  | some t =>
    if t = 0 then q
    else if t ≤ now then
      { q with
        used := some 0
        remaining := q.limit
        resetAt := if q.limit = none then none else some (getNextUtcMidnight now)
        lastUpdated := now }
    else q

/-! ## The quota-error parser

`parseQuotaError` runs three JavaScript regular expressions over the raw
error text:

* `/limit: (\d+)/`
* `/"quotaValue":"(\d+)"/`
* `/retryDelay["\s:]+(\d+)s/`

Each is embedded as a matcher that tries the pattern at one position
(`limitAt`, `quotaValueAt`, `retryDelayAt`) together with a leftmost-match
scanner (`scanFirst`).  `\d+` is greedy; in all three patterns the character
required after the digit run (nothing, `"`, `s`) is not itself a digit, so
greedy matching without backtracking is exact. -/

/-- `\d` — ASCII digits. -/
def isAsciiDigit (c : Char) : Bool :=
  '0' ≤ c && c ≤ '9'

/-- JavaScript `\\s`: ASCII whitespace plus the Unicode space characters of the
ECMAScript `WhiteSpace` and `LineTerminator` productions (U+00A0, U+1680,
U+2000 through U+200A, U+2028, U+2029, U+202F, U+205F, U+3000, U+FEFF),
written as codepoints. -/
def isJsSpace (c : Char) : Bool :=
  let n := c.toNat
  n = 32 || n = 9 || n = 10 || n = 13 || n = 11 || n = 12 ||
  n = 0xa0 || n = 0x1680 || (0x2000 ≤ n && n ≤ 0x200a) ||
  n = 0x2028 || n = 0x2029 || n = 0x202f || n = 0x205f || n = 0x3000 || n = 0xfeff

/-- The character class `["\s:]` of the `retryDelay` pattern. -/
def isRetrySep (c : Char) : Bool :=
  c = '"' || c = ':' || isJsSpace c

/-- Match a literal pattern at the head of the input; on success return the
rest of the input. -/
def matchLiteral : List Char → List Char → Option (List Char)
  | [], cs => some cs
  | _ :: _, [] => none
  | p :: ps, c :: cs => if c = p then matchLiteral ps cs else none

/-- Split off the maximal leading digit run. -/
def digitRun : List Char → List Char × List Char
  | [] => ([], [])
  | c :: cs =>
    if isAsciiDigit c then
      let (ds, rest) := digitRun cs
      (c :: ds, rest)
    else ([], c :: cs)

/-- Split off the maximal leading run of `["\s:]` characters. -/
def sepRun : List Char → List Char × List Char
  | [] => ([], [])
  | c :: cs =>
    if isRetrySep c then
      let (ds, rest) := sepRun cs
      (c :: ds, rest)
    else ([], c :: cs)

/-- `parseInt(ds, 10)` on a digit run. -/
def digitsToNat (ds : List Char) : Nat :=
  ds.foldl (fun n c => 10 * n + (c.toNat - '0'.toNat)) 0

/-- Leftmost match: try the position matcher at every suffix, left to right
(the semantics of `String.prototype.match` with a non-global regex). -/
def scanFirst (f : List Char → Option Nat) : List Char → Option Nat
  | [] => none
  | c :: cs =>
    match f (c :: cs) with
    | some v => some v
    | none => scanFirst f cs

/-- `/limit: (\d+)/` anchored at the current position. -/
def limitAt (cs : List Char) : Option Nat :=
  match matchLiteral "limit: ".toList cs with
  | none => none
  | some rest =>
    let (ds, _) := digitRun rest
    if ds = [] then none else some (digitsToNat ds)

/-- `/"quotaValue":"(\d+)"/` anchored at the current position. -/
def quotaValueAt (cs : List Char) : Option Nat :=
  match matchLiteral "\"quotaValue\":\"".toList cs with
  | none => none
  | some rest =>
    let (ds, r) := digitRun rest
    if ds = [] then none
    else
      match r with
      | '"' :: _ => some (digitsToNat ds)
      | _ => none

/-- `/retryDelay["\s:]+(\d+)s/` anchored at the current position. -/
def retryDelayAt (cs : List Char) : Option Nat :=
  match matchLiteral "retryDelay".toList cs with
  | none => none
  | some rest =>
    let (seps, r1) := sepRun rest
    if seps = [] then none
    else
      let (ds, r2) := digitRun r1
      if ds = [] then none
      else
        match r2 with
        | 's' :: _ => some (digitsToNat ds)
        | _ => none

/-- `errorText.includes(pat)` for a non-empty literal pattern. -/
def containsLiteral (pat : List Char) : List Char → Bool
  | [] => (matchLiteral pat []).isSome
  | c :: cs => (matchLiteral pat (c :: cs)).isSome || containsLiteral pat cs

/-- The `period` field of a parse result. -/
inductive Period where
  | day
  | minute
  | unknown
  deriving DecidableEq, Repr

/-- The ephemeral result record of `parseQuotaError`. -/
structure QuotaErrorDetails where
  limit : Option Int
  used : Option Int
  remaining : Option Int
  retryAfter : Option Int
  period : Period
  available : Bool
  deriving DecidableEq, Repr

/-- `parseQuotaError` from `App.tsx`.  Total by construction (the source never
throws on any input: every extraction is a best-effort regex match).
`retrySeconds ? Date.now() + retrySeconds * 1000 : null` uses JavaScript
truthiness, so an extracted delay of `0` seconds yields `null`. -/
def parseQuotaError (errorText : String) (now : Int) : QuotaErrorDetails :=
  let cs := errorText.toList
  let limitMatch : Option Int := (scanFirst limitAt cs).map Int.ofNat
  let used : Option Int := (scanFirst quotaValueAt cs).map Int.ofNat
  let retrySeconds : Option Nat := scanFirst retryDelayAt cs
  let isPerDay := containsLiteral "PerDay".toList cs
  let isPerMinute := containsLiteral "PerMinute".toList cs
  { limit := limitMatch
    used := used
    remaining :=
      match limitMatch, used with
      | some l, some u => some (l - u)
      | _, _ => none
    retryAfter :=
      match retrySeconds with
      | some d => if d = 0 then none else some (now + (d : Int) * 1000)
      | none => none
    period := if isPerDay then .day else if isPerMinute then .minute else .unknown
    available := limitMatch ≠ some 0 }

/-! ## Quota store -/

/-- The `Partial<QuotaInfo>` argument of `updateQuota`: the four merged fields,
with `none` standing for an absent or `null` field (both are nullish and `??`
treats them alike; `lastUpdated` is always freshly stamped). -/
structure QuotaUpdate where
  limit : Option Int
  used : Option Int
  remaining : Option Int
  resetAt : Option Int
  deriving DecidableEq, Repr

/-- The merge step of `updateQuota`: `update.f ?? existing?.f ?? null` per
field, and `lastUpdated = Date.now()`. -/
def mergeQuota (existing : Option QuotaInfo) (u : QuotaUpdate) (now : Int) :
    QuotaInfo where
  limit := u.limit.orElse fun _ => existing.bind QuotaInfo.limit
  used := u.used.orElse fun _ => existing.bind QuotaInfo.used
  remaining := u.remaining.orElse fun _ => existing.bind QuotaInfo.remaining
  resetAt := u.resetAt.orElse fun _ => existing.bind QuotaInfo.resetAt
  lastUpdated := now

/-- `updateQuota` from `App.tsx`: merge the partial over the existing record
(or a blank one), normalize, store under the model key. -/
def updateQuota (store : QuotaStoreMap) (model : String) (u : QuotaUpdate)
    (now : Int) : QuotaStoreMap :=
  fun k =>
    if k = model then some (normalizeQuota now (mergeQuota (store model) u now))
    else store k

/-- `getQuota` from `App.tsx`: the normalized record, or `undefined` when the
model has no stored record. -/
def getQuota (store : QuotaStoreMap) (now : Int) (model : String) :
    Option QuotaInfo :=
  (store model).map (normalizeQuota now)

/-- The empty quota store (`{ modelQuotas: {} }`). -/
def emptyStore : QuotaStoreMap := fun _ => none

/-! ## Model selector -/

/-- An entry of the `models` list (the fields the quota logic reads). -/
structure Model where
  value : String
  label : String
  description : String
  deriving DecidableEq, Repr

/-- The message of the `TypeError` thrown by the `models.find` callback in
`selectFallbackModel` when `quota` is `undefined`. -/
def typeErrorRemaining : String :=
  "Cannot read properties of undefined (reading 'remaining')"

/-- The body of the `models.find` callback in `selectFallbackModel`,
transcribed clause by clause:

* `model.value === current` → not a candidate;
* `quota?.limit === 0` → not a candidate (only when `quota` is defined and
  its limit is `0`: `undefined === 0` is false);
* `quota?.remaining !== null && quota.remaining <= 0` → not a candidate.
  When `quota` is `undefined`, the left conjunct is **true**
  (`undefined !== null`), and the right conjunct dereferences
  `quota.remaining` on `undefined`, which throws a `TypeError`;
* otherwise a candidate. -/
def fallbackCandidate (store : QuotaStoreMap) (now : Int) (current : String)
    (m : Model) : Except String Bool :=
  if m.value = current then .ok false
  else
    match getQuota store now m.value with
    | some q =>
      if q.limit = some 0 then .ok false
      else if q.remaining ≠ none then
        if q.remaining.getD 0 ≤ 0 then .ok false else .ok true
      else .ok true
    | none => .error typeErrorRemaining

/-- `models.find(...)` over `fallbackCandidate`, propagating a thrown
`TypeError`. -/
def fallbackScan (store : QuotaStoreMap) (now : Int) (current : String) :
    List Model → Except String (Option Model)
  | [] => .ok none
  | m :: rest =>
    match fallbackCandidate store now current m with
    | .error e => .error e
    | .ok true => .ok (some m)
    | .ok false => fallbackScan store now current rest

/-! ## Send controller

`sendMessage` from `App.tsx`, embedded as a pure function of the relevant
application state, the call arguments, a parameter describing the network
outcome of the single `fetch`, and the clock.  Persistence calls
(`addMessage`, `createChat`) are recorded both in the resulting transcript
and as an event trace, in execution order. -/

/-- `String.prototype.trim()`: strip JavaScript whitespace from both ends. -/
def jsTrim (s : String) : String :=
  ⟨((s.toList.dropWhile (fun c => isJsSpace c)).reverse.dropWhile
      (fun c => isJsSpace c)).reverse⟩

/-- A persisted chat message (`role`, `content`, optional `images` — `[]`
standing for `undefined`). -/
structure ChatMessage where
  role : String
  content : String
  images : List String
  deriving DecidableEq, Repr

/-- One `data:` line of the SSE stream as the loop sees it after
`JSON.parse`: `done` is `data: [DONE]`; `payload err txt` is a parsed JSON
object whose `error`/`text` fields are `none` when absent or falsy (the code
tests both with truthiness, so an empty-string field acts like an absent
one); `malformed` is a line whose payload fails to parse, or a non-`data:`
line (both contribute nothing). -/
inductive Frame where
  | done
  | payload (error : Option String) (text : Option String)
  | malformed
  deriving DecidableEq, Repr

/-- The inner `for (const line of lines)` loop of the stream reader over one
chunk, accumulating `fullText`:

* `[DONE]` breaks out of the chunk;
* a payload with a truthy `error` executes `throw new Error(parsed.error)` —
  but that throw happens *inside* the `try { JSON.parse ... }` whose
  `catch {}` ignores parse errors, so it is swallowed and the loop simply
  continues;
* a payload with a truthy `text` appends it;
* anything else is skipped. -/
def processChunk (fullText : String) : List Frame → String
  | [] => fullText
  | .done :: _ => fullText
  | .payload (some _) _ :: rest => processChunk fullText rest
  | .payload none (some s) :: rest => processChunk (fullText ++ s) rest
  | .payload none none :: rest => processChunk fullText rest
  | .malformed :: rest => processChunk fullText rest

/-- The whole read loop: fold `processChunk` over the received chunks.  At
every point, the React `streamingText` state equals this accumulated value
(it is re-set on every appended increment). -/
def runStream (chunks : List (List Frame)) : String :=
  chunks.foldl processChunk ""

/-- The text increments a single chunk contributes, in order. -/
def chunkIncrements : List Frame → List String
  | [] => []
  | .done :: _ => []
  | .payload none (some s) :: rest => s :: chunkIncrements rest
  | .payload none none :: rest => chunkIncrements rest
  | .payload (some _) _ :: rest => chunkIncrements rest
  | .malformed :: rest => chunkIncrements rest

/-- All text increments of a chunk sequence, in order. -/
def streamIncrements (chunks : List (List Frame)) : List String :=
  chunks.flatMap chunkIncrements

/-- The armed auto-retry payload of `App.tsx` (`{ text, images, model }`). -/
structure AutoRetryMessage where
  text : String
  images : List String
  model : String
  deriving DecidableEq, Repr

/-- The application state `sendMessage` reads and writes. -/
structure AppState where
  currentChatId : Option Nat
  isLoading : Bool
  hasApiKey : Bool
  selectedModel : String
  models : List Model
  quotaStore : QuotaStoreMap
  transcript : List ChatMessage
  errorBanner : String
  retryAt : Option Int
  autoRetryMessage : Option AutoRetryMessage
  streamingText : String

/-- `quota?.remaining ?? '—'` rendered into the fallback-switch banner. -/
def showRemaining (q : Option QuotaInfo) : String :=
  match q.bind QuotaInfo.remaining with
  | some r => toString r
  | none => "—"

/-- `quotaInfo.limit ?? '—'` rendered into the exhausted banner. -/
def showLimit (l : Option Int) : String :=
  match l with
  | some v => toString v
  | none => "—"

/-- `Math.max(1, Math.ceil((retryAt - now) / 1000))` seconds, rendered into
the countdown banner (`(x + 999) / 1000` is the ceiling for floor
division). -/
def countdownBanner (retryAt now : Int) : String :=
  "⏱️ Повторите через " ++ toString (max 1 ((retryAt - now + 999) / 1000)) ++
    " секунд"

/-- `selectFallbackModel` from `App.tsx`: scan for the first usable model; on
a hit, switch the selection and show the switch banner; a `TypeError` thrown
by the scan propagates. -/
def selectFallbackModel (st : AppState) (current : String) (now : Int) :
    Except String AppState :=
  match fallbackScan st.quotaStore now current st.models with
  | .error e => .error e
  | .ok none => .ok st
  | .ok (some m) =>
    .ok { st with
      selectedModel := m.value
      errorBanner := "Переключено на " ++ m.label ++ " (осталось " ++
        showRemaining (getQuota st.quotaStore now m.value) ++ " запросов)" }

/-- The outcome of the single `fetch` of one `sendMessage` call:

* `netFail name msg` — the `fetch` promise rejects (network failure; the
  rejection's error name and message);
* `httpError status body` — a non-2xx response with the given body text;
* `stream chunks abortAfter` — a 2xx streaming response delivering `chunks`;
  `abortAfter = some n` means the user's stop click aborts the read at the
  chunk boundary after `n` chunks (the next `reader.read()` rejects with an
  `AbortError`), `none` means the stream is read to completion. -/
inductive NetOutcome where
  | netFail (errName errMsg : String)
  | httpError (status : Nat) (body : String)
  | stream (chunks : List (List Frame)) (abortAfter : Option Nat)

/-- Persistence events of one `sendMessage` run, in execution order. -/
inductive Event where
  | createChat
  | persistUser (content : String) (images : List String)
  | fetchStart (model : String)
  | persistAssistant (content : String)
  | persistError (content : String)
  deriving DecidableEq, Repr

/-- The `res.status === 429` branch of `sendMessage`: parse the body, apply
the delta through `updateQuota`, branch on the parsed details (`limit === 0`
/ `remaining === 0` / truthy `retryAfter` / nothing), then
`throw new Error('quota_error')`.  A `TypeError` thrown by
`selectFallbackModel` pre-empts the `quota_error` throw.  Returns the
post-branch state and the thrown error as `(name, message)`. -/
def quota429 (st : AppState) (modelToUse : String) (text : String)
    (images : List String) (body : String) (now : Int) :
    AppState × String × String :=
  let qi := parseQuotaError body now
  let delta : QuotaUpdate :=
    ⟨qi.limit, qi.used, qi.remaining,
      if qi.period = .day then some (getNextUtcMidnight now) else none⟩
  let st := { st with quotaStore := updateQuota st.quotaStore modelToUse delta now }
  if qi.limit = some 0 then
    let st := { st with errorBanner :=
      "❌ Модель " ++ modelToUse ++ " недоступна на бесплатном тарифе" }
    match selectFallbackModel st modelToUse now with
    | .ok st' => (st', "Error", "quota_error")
    | .error e => (st, "TypeError", e)
  else if qi.remaining = some 0 then
    let st := { st with errorBanner :=
      "⏳ Лимит исчерпан (0/" ++ showLimit qi.limit ++
        "). Обновится завтра в 00:00 UTC." }
    match selectFallbackModel st modelToUse now with
    | .ok st' => (st', "Error", "quota_error")
    | .error e => (st, "TypeError", e)
  else
    match qi.retryAfter with
    | some t =>
      if t = 0 then (st, "Error", "quota_error")
      else
        ({ st with
            retryAt := some t
            autoRetryMessage := some ⟨jsTrim text, images, modelToUse⟩
            errorBanner := countdownBanner t now }, "Error", "quota_error")
    | none => (st, "Error", "quota_error")

/-- The `try` block of `sendMessage` after the user message is persisted:
returns the state, the persistence events of the block, and the thrown
error, if any, as `(name, message)`. -/
def tryBody (st2 : AppState) (modelToUse : String) (text : String)
    (images : List String) (net : NetOutcome) (now : Int) :
    AppState × List Event × Option (String × String) :=
  match net with
  | .netFail n m => (st2, [], some (n, m))
  | .httpError status body =>
    if status = 429 then
      let r := quota429 st2 modelToUse text images body now
      (r.1, [], some r.2)
    else (st2, [], some ("Error", body))
  | .stream chunks abortAfter =>
    match abortAfter with
    | some n =>
      let fullText := runStream (chunks.take n)
      ({ st2 with streamingText := fullText }, [],
        some ("AbortError", "The user aborted a request."))
    | none =>
      let fullText := runStream chunks
      if fullText ≠ "" then
        ({ st2 with
            streamingText := fullText
            transcript := st2.transcript ++ [⟨"model", fullText, []⟩] },
          [Event.persistAssistant fullText], none)
      else ({ st2 with streamingText := fullText }, [], none)

/-- JavaScript string-option falsiness: `undefined` or `''`. -/
def jsStrFalsy : Option String → Bool
  | none => true
  | some s => s = ""

/-- The `catch` block of `sendMessage`: an error whose name is not
`AbortError` and whose message is not `quota_error` is persisted as a
synthetic assistant message `Ошибка: <message>`; aborts and
already-handled quota errors persist nothing. -/
def applyCatch (st : AppState) (thrown : Option (String × String)) :
    AppState × List Event :=
  match thrown with
  | some (n, m) =>
    if n ≠ "AbortError" ∧ m ≠ "quota_error" then
      ({ st with transcript :=
          st.transcript ++ [(⟨"model", "Ошибка: " ++ m, []⟩ : ChatMessage)] },
        [Event.persistError ("Ошибка: " ++ m)])
    else (st, [])
  | none => (st, [])

/-- `sendMessage(text, attachedImages, modelOverride?)` from `App.tsx`:

1. no-op when the input is blank with no images, a send is in flight, or no
   key / no usable model is available;
2. lazily creates a chat when none is current;
3. persists the user message (`addMessage`), **then**
4. starts the `fetch` whose outcome is `net`;
5. handles the outcome as in the source (`quota429`, the stream loop, the
   `catch` that persists `Ошибка: <message>` for errors other than
   `AbortError` and `quota_error`, the `finally` that clears
   `isLoading`/`streamingText`).

Returns the final state and the persistence events in execution order. -/
def sendMessage (st : AppState) (text : String) (images : List String)
    (modelOverride : Option String) (net : NetOutcome) (now : Int) :
    AppState × List Event :=
  if (jsTrim text = "" ∧ images = []) ∨ st.isLoading = true ∨
      st.hasApiKey = false then (st, [])
  else if jsStrFalsy modelOverride = true ∧ st.selectedModel = "" then (st, [])
  else
    let (st1, ev0) :=
      match st.currentChatId with
      | some _ => (st, ([] : List Event))
      | none => ({ st with currentChatId := some 0 }, [Event.createChat])
    let userMsg : ChatMessage := ⟨"user", jsTrim text, images⟩
    let st2 := { st1 with
      transcript := st1.transcript ++ [userMsg]
      isLoading := true
      streamingText := ""
      errorBanner := "" }
    let modelToUse :=
      if jsStrFalsy modelOverride then st.selectedModel
      else modelOverride.getD ""
    let ev1 := ev0 ++ [Event.persistUser (jsTrim text) images,
      Event.fetchStart modelToUse]
    let r := tryBody st2 modelToUse text images net now
    let c := applyCatch r.1 r.2.2
    ({ c.1 with isLoading := false, streamingText := "" }, ev1 ++ r.2.1 ++ c.2)

/-- `handleStop` from `App.tsx`: on the user's stop click, persist the
current partial `streamingText` as a completed assistant message when it is
non-blank and a chat is active (`streamingText.trim() && currentChatId`,
JavaScript truthiness). -/
def handleStop (currentChatId : Option Nat) (streamingText : String)
    (transcript : List ChatMessage) : List ChatMessage :=
  if jsTrim streamingText ≠ "" ∧ currentChatId ≠ none then
    transcript ++ [⟨"model", streamingText, []⟩]
  else transcript

/-- End-to-end transcript of a send the user cancels at the chunk boundary
after `n` chunks: `sendMessage` persists the user message and the loop has
accumulated `runStream (chunks.take n)` into `streamingText` when the stop
click runs `handleStop` (which persists the partial text); the pending read
then rejects with `AbortError`, whose `catch`/`finally` path persists
nothing further. -/
def cancelledRun (st : AppState) (text : String) (images : List String)
    (modelOverride : Option String) (chunks : List (List Frame)) (n : Nat)
    (now : Int) : List ChatMessage :=
  let r := sendMessage st text images modelOverride (.stream chunks (some n)) now
  handleStop r.1.currentChatId (runStream (chunks.take n)) r.1.transcript

/-! ## Auto-retry poll (the `part_000` variant, whose armed payload records
the chat it was created in) -/

/-- The armed retry intent of the `part_000` variant:
`{ chatId, text, images, model }`. -/
structure RetryIntent where
  chatId : Nat
  text : String
  images : List String
  model : String
  deriving DecidableEq, Repr

/-- What one poll tick did. -/
inductive RetryTick where
  | countdown (banner : String)
  | discarded
  | fired (intent : RetryIntent)
  deriving DecidableEq, Repr

/-- One 500 ms tick of the auto-retry poll effect (`part_000`).  The effect
body only runs while `retryAt` and `autoRetryMessage` are both truthy, so the
tick takes them as given (with `retryAt ≠ 0`).  When the deadline has passed
it clears the interval and the armed state; if the payload's chat is no
longer the current chat it also clears the banner and returns **without**
calling `sendMessage` (`discarded`); otherwise it fires the payload
(`fired`).  Before the deadline it re-renders the countdown banner.  Returns
the tick outcome and the new `(retryAt, autoRetryMessage)` pair. -/
def autoRetryTick (retryAt : Int) (p : RetryIntent)
    (currentChatId : Option Nat) (now : Int) :
    RetryTick × Option Int × Option RetryIntent :=
  if retryAt ≤ now then
    if some p.chatId ≠ currentChatId then (.discarded, none, none)
    else (.fired p, none, none)
  else (.countdown (countdownBanner retryAt now), some retryAt, some p)

/-! ## Derived notions used by the statements -/

/-- Concatenation of a list of strings, in order. -/
def joinList : List String → String
  | [] => ""
  | s :: rest => s ++ joinList rest

/-- The record does not roll over at `now`: `resetAt` is falsy (`null` or
`0`) or still in the future — the complement of the reset branch of
`normalizeQuota`. -/
def noRollover (now : Int) (q : QuotaInfo) : Prop :=
  match q.resetAt with
  | none => True
  | some t => t = 0 ∨ now < t

/-- The storage invariant asserted by the spec: every stored `remaining`,
when not null, is non-negative and bounded by a non-null `limit`. -/
def storeInv (s : QuotaStoreMap) : Prop :=
  ∀ m q, s m = some q → ∀ r, q.remaining = some r →
    0 ≤ r ∧ ∀ l, q.limit = some l → r ≤ l

/-- Quota stores reachable from the empty store through `updateQuota`
steps. -/
inductive ReachableStore : QuotaStoreMap → Prop
  | empty : ReachableStore emptyStore
  | update (s : QuotaStoreMap) (model : String) (u : QuotaUpdate) (now : Int) :
      ReachableStore s → ReachableStore (updateQuota s model u now)

/-! ## Concrete fixtures -/

/-- Model A of the spec's fallback example (stored `limit = 0`). -/
def modelA : Model := ⟨"A", "Model A", ""⟩

/-- Model B of the spec's fallback example (stored `remaining = 0`). -/
def modelB : Model := ⟨"B", "Model B", ""⟩

/-- Model C of the spec's fallback example (no stored quota record). -/
def modelC : Model := ⟨"C", "Model C", ""⟩

/-- The store of the spec's fallback example: `A(limit=0)`, `B(remaining=0)`,
nothing for `C`; no pending resets. -/
def storeABC : QuotaStoreMap := fun k =>
  if k = "A" then some ⟨some 0, none, none, none, 0⟩
  else if k = "B" then some ⟨none, none, some 0, none, 0⟩
  else none

/-- A ready-to-send base state: an active chat, no send in flight, a stored
key, model `m1` selected, empty quota store and transcript. -/
def baseState : AppState where
  currentChatId := some 1
  isLoading := false
  hasApiKey := true
  selectedModel := "m1"
  models := []
  quotaStore := emptyStore
  transcript := []
  errorBanner := ""
  retryAt := none
  autoRetryMessage := none
  streamingText := ""

/-- A 429 body reporting more use than the limit allows
(`limit: 5`, `"quotaValue":"7"`), so the parsed `remaining` is `-2`. -/
def overdrawnBody : String := "limit: 5 \"quotaValue\":\"7\""

/-- The `Partial<QuotaInfo>` the 429 handler builds from `overdrawnBody`,
exactly as `sendMessage` does. -/
def overdrawnDelta (now : Int) : QuotaUpdate :=
  let qi := parseQuotaError overdrawnBody now
  ⟨qi.limit, qi.used, qi.remaining,
    if qi.period = .day then some (getNextUtcMidnight now) else none⟩

/-- The store after the single overdrawn update: it stores
`remaining = -2`. -/
def overdrawnStore : QuotaStoreMap :=
  updateQuota emptyStore "m1" (overdrawnDelta 1000) 1000

/-! ## Shared helper lemmas -/

/-- `getNextUtcMidnight` really is the next UTC midnight: a multiple of one
day (86 400 000 ms) strictly above `now` and at most one day away. -/
theorem getNextUtcMidnight_spec (now : Int) :
    now < getNextUtcMidnight now ∧ getNextUtcMidnight now ≤ now + 86400000 ∧
      (86400000 : Int) ∣ getNextUtcMidnight now := by
  refine ⟨?_, ?_, ?_⟩
  · unfold getNextUtcMidnight; omega
  · unfold getNextUtcMidnight; omega
  · exact ⟨now / 86400000 + 1, Int.mul_comm _ _⟩

/-! ## Claim theorems -/

/-- C1 (the claimed behavior fails: the code throws).  Given the claim's own
models `A(limit=0)`, `B(remaining=0)`, `C(no stored quota record)` and no
excluded model, the `models.find` scan of `selectFallbackModel` skips `A`
and `B` and then, at `C`, evaluates `quota?.remaining !== null` — which is
true for an `undefined` quota — so it dereferences `quota.remaining` on
`undefined` and throws a `TypeError` instead of returning `C`. -/
theorem C1_fallback_crashes_on_missing_record :
    fallbackScan storeABC 0 "no-model-excluded" [modelA, modelB, modelC] =
      .error typeErrorRemaining := by
  rfl

/-- C4: normalizing a record whose truthy `resetAt` has elapsed resets
`used` to 0, sets `remaining = limit` (null when the limit is null),
advances `resetAt` to the next UTC midnight when the limit is non-null and
clears it to null otherwise; and `getNextUtcMidnight now` is indeed the next
UTC midnight after `now`. -/
theorem C4_rollover_normalization (q : QuotaInfo) (now t : Int)
    (hset : q.resetAt = some t) (ht : t ≠ 0) (helapsed : t ≤ now) :
    (normalizeQuota now q).used = some 0 ∧
    (normalizeQuota now q).remaining = q.limit ∧
    (q.limit ≠ none →
      (normalizeQuota now q).resetAt = some (getNextUtcMidnight now)) ∧
    (q.limit = none → (normalizeQuota now q).resetAt = none) ∧
    now < getNextUtcMidnight now ∧ getNextUtcMidnight now ≤ now + 86400000 ∧
    (86400000 : Int) ∣ getNextUtcMidnight now := by
  have hnq : normalizeQuota now q =
      { q with
        used := some 0
        remaining := q.limit
        resetAt := if q.limit = none then none else some (getNextUtcMidnight now)
        lastUpdated := now } := by
    unfold normalizeQuota
    rw [hset]
    simp [ht, helapsed]
  obtain ⟨hlt, hle, hdvd⟩ := getNextUtcMidnight_spec now
  refine ⟨?_, ?_, ?_, ?_, hlt, hle, hdvd⟩
  · rw [hnq]
  · rw [hnq]
  · intro hlim; rw [hnq]; simp [hlim]
  · intro hlim; rw [hnq]; simp [hlim]

/-- Witness for C4 at the spec's concrete record
`{limit: 10, used: 10, remaining: 0, resetAt: 1000}` and `now = 2000`. -/
theorem C4_rollover_normalization_witness :
    (normalizeQuota 2000 ⟨some 10, some 10, some 0, some 1000, 0⟩).used = some 0 ∧
    (normalizeQuota 2000 ⟨some 10, some 10, some 0, some 1000, 0⟩).remaining =
      some 10 ∧
    (normalizeQuota 2000 ⟨some 10, some 10, some 0, some 1000, 0⟩).resetAt =
      some 86400000 := by
  have h := C4_rollover_normalization ⟨some 10, some 10, some 0, some 1000, 0⟩
    2000 1000 rfl (by decide) (by decide)
  refine ⟨h.1, ?_, ?_⟩
  · rw [h.2.1]
  · have := h.2.2.1 (by decide)
    rw [this]
    rfl

/-- C6 counterexample: `"retryDelay: 0s"` contains the retryDelay pattern
with digit value `0`, yet the parsed `retryAfter` is null — not
`now + 0 * 1000` as the claim requires — because the code's truthiness test
`retrySeconds ? Date.now() + retrySeconds * 1000 : null` drops a zero
delay. -/
theorem C6_counterexample :
    scanFirst retryDelayAt ("retryDelay: 0s".toList) = some 0 ∧
    (parseQuotaError "retryDelay: 0s" 1000).retryAfter = none ∧
    ¬ (parseQuotaError "retryDelay: 0s" 1000).retryAfter =
        some (1000 + 0 * 1000) := by
  refine ⟨by decide, by decide, by decide⟩

/-- C6 as amended: `retryAfter` is `now + d * 1000` whenever the text
contains a retryDelay pattern with digit value `d > 0`, and null when the
pattern is absent or its value is `0`. -/
theorem C6_retry_after_rule (s : String) (now : Int) :
    (parseQuotaError s now).retryAfter =
      match scanFirst retryDelayAt s.toList with
      | some d => if d = 0 then none else some (now + (d : Int) * 1000)
      | none => none := by
  rfl

/-- C8: when the auto-retry poll tick observes `now >= firesAt` but the
intent's chat is no longer the current chat, the tick discards the intent
silently: the armed state is cleared (both `retryAt` and the payload become
null) and `sendMessage` is not invoked (the outcome is `discarded`, not
`fired`). -/
theorem C8_stale_retry_discarded (t : Int) (p : RetryIntent)
    (cur : Option Nat) (now : Int) (hfire : t ≤ now)
    (hstale : some p.chatId ≠ cur) :
    autoRetryTick t p cur now = (.discarded, none, none) := by
  unfold autoRetryTick
  rw [if_pos hfire, if_pos hstale]

/-- Witness for C8: an intent armed in chat 2 whose deadline has passed
while chat 1 is current. -/
theorem C8_stale_retry_discarded_witness :
    autoRetryTick 100 ⟨2, "hello", [], "m1"⟩ (some 1) 150 =
      (.discarded, none, none) :=
  C8_stale_retry_discarded 100 ⟨2, "hello", [], "m1"⟩ (some 1) 150
    (by decide) (by decide)

/-- C9: the parser is total by construction (it is a Lean function), and on
any text containing none of the extraction patterns — in particular the
empty string — it returns the all-unknown result: all numeric fields null,
`period = 'unknown'`, `available = true`. -/
theorem C9_parser_tolerant (s : String) (now : Int)
    (h1 : scanFirst limitAt s.toList = none)
    (h2 : scanFirst quotaValueAt s.toList = none)
    (h3 : scanFirst retryDelayAt s.toList = none)
    (h4 : containsLiteral "PerDay".toList s.toList = false)
    (h5 : containsLiteral "PerMinute".toList s.toList = false) :
    parseQuotaError s now = ⟨none, none, none, none, Period.unknown, true⟩ := by
  simp only [parseQuotaError, h1, h2, h3, h4, h5]
  rfl

/-- Witness for C9 at the empty string. -/
theorem C9_parser_tolerant_witness :
    parseQuotaError "" 0 = ⟨none, none, none, none, Period.unknown, true⟩ :=
  C9_parser_tolerant "" 0 rfl rfl rfl rfl rfl

/-- A record that does not roll over passes through `normalizeQuota`
unchanged. -/
theorem normalizeQuota_of_noRollover (now : Int) (q : QuotaInfo)
    (h : noRollover now q) : normalizeQuota now q = q := by
  unfold noRollover at h
  unfold normalizeQuota
  cases hr : q.resetAt with
  | none => rfl
  | some t =>
    rw [hr] at h
    simp only at h
    dsimp only
    by_cases h0 : t = 0
    · rw [if_pos h0]
    · have hlt : now < t := by tauto
      rw [if_neg h0, if_neg (by omega)]

/-- C10: `updateQuota` merges each field with nullish coalescing, so a null
field in the partial never overwrites an existing non-null stored field;
when the merged record does not roll over (the only case in which
`normalizeQuota` rewrites fields), the stored record is exactly the merge,
each field is `update.f ?? existing.f`, and every non-null existing field
stays non-null. -/
theorem C10_update_merge_preserves_fields (store : QuotaStoreMap)
    (model : String) (u : QuotaUpdate) (now : Int) (q : QuotaInfo)
    (hq : store model = some q)
    (hnr : noRollover now (mergeQuota (store model) u now)) :
    ∃ q', updateQuota store model u now model = some q' ∧
      q'.limit = (u.limit.orElse fun _ => q.limit) ∧
      q'.used = (u.used.orElse fun _ => q.used) ∧
      q'.remaining = (u.remaining.orElse fun _ => q.remaining) ∧
      q'.resetAt = (u.resetAt.orElse fun _ => q.resetAt) ∧
      (q.limit ≠ none → q'.limit ≠ none) ∧
      (q.used ≠ none → q'.used ≠ none) ∧
      (q.remaining ≠ none → q'.remaining ≠ none) ∧
      (q.resetAt ≠ none → q'.resetAt ≠ none) := by
  refine ⟨mergeQuota (store model) u now, ?_, ?_, ?_, ?_, ?_, ?_, ?_, ?_, ?_⟩
  · unfold updateQuota
    rw [if_pos rfl, normalizeQuota_of_noRollover now _ hnr]
  · simp [mergeQuota, hq]
  · simp [mergeQuota, hq]
  · simp [mergeQuota, hq]
  · simp [mergeQuota, hq]
  · cases hu : u.limit <;> simp [mergeQuota, hq, hu, Option.orElse]
  · cases hu : u.used <;> simp [mergeQuota, hq, hu, Option.orElse]
  · cases hu : u.remaining <;> simp [mergeQuota, hq, hu, Option.orElse]
  · cases hu : u.resetAt <;> simp [mergeQuota, hq, hu, Option.orElse]

/-- Witness for C10: updating model `A` of `storeABC` (stored
`limit = 0`) with a partial whose `limit` is null keeps the stored limit
non-null. -/
theorem C10_update_merge_preserves_fields_witness :
    ∃ q', updateQuota storeABC "A" ⟨none, some 3, none, none⟩ 5 "A" = some q' ∧
      q'.limit ≠ none := by
  obtain ⟨q', h1, h2, _, _, _, h6, _⟩ :=
    C10_update_merge_preserves_fields storeABC "A" ⟨none, some 3, none, none⟩ 5
      ⟨some 0, none, none, none, 0⟩ (by decide)
      (by
        have hr : (mergeQuota (storeABC "A") ⟨none, some 3, none, none⟩ 5).resetAt =
            none := by decide
        unfold noRollover
        rw [hr]
        trivial)
  exact ⟨q', h1, h6 (by decide)⟩

/-- C5 counterexample: a store reachable from the empty store by one
`updateQuota` step — carrying exactly the delta the 429 handler builds from
a body reporting `limit: 5` and `"quotaValue":"7"` — stores
`remaining = -2 < 0` for `m1`, so the claimed storage invariant fails. -/
theorem C5_counterexample :
    ReachableStore overdrawnStore ∧ ¬ storeInv overdrawnStore := by
  constructor
  · exact ReachableStore.update emptyStore "m1" (overdrawnDelta 1000) 1000
      ReachableStore.empty
  · intro h
    have hq : overdrawnStore "m1" =
        some ⟨some 5, some 7, some (-2), none, 1000⟩ := by decide
    have hv := h "m1" _ hq (-2) rfl
    exact absurd hv.1 (by norm_num)

/-- C5 as amended: the bound is not a storage invariant (stored `remaining`
can go negative or exceed the limit); it is re-established at window
rollover: normalizing any record whose truthy `resetAt` has elapsed and
whose `limit` is known stores `remaining = limit` and `used = 0`. -/
theorem C5_rollover_restores_remaining (q : QuotaInfo) (now t l : Int)
    (hset : q.resetAt = some t) (ht : t ≠ 0) (helapsed : t ≤ now)
    (hlim : q.limit = some l) :
    (normalizeQuota now q).remaining = some l ∧
      (normalizeQuota now q).used = some 0 := by
  unfold normalizeQuota
  rw [hset]
  simp [ht, helapsed, hlim]

/-- Witness for C5's amended statement: a rolled-over overdrawn record
(`remaining = -2`) comes back with `remaining = limit = 7`. -/
theorem C5_rollover_restores_remaining_witness :
    (normalizeQuota 2000 ⟨some 7, some 7, some (-2), some 1000, 0⟩).remaining =
      some 7 ∧
    (normalizeQuota 2000 ⟨some 7, some 7, some (-2), some 1000, 0⟩).used =
      some 0 :=
  C5_rollover_restores_remaining ⟨some 7, some 7, some (-2), some 1000, 0⟩
    2000 1000 7 rfl (by decide) (by decide) rfl

/-- `processChunk` appends exactly the chunk's increments. -/
theorem processChunk_eq_join (fs : List Frame) (ft : String) :
    processChunk ft fs = ft ++ joinList (chunkIncrements fs) := by
  induction fs generalizing ft with
  | nil => simp [processChunk, chunkIncrements, joinList, String.append_empty]
  | cons f rest ih =>
    cases f with
    | done => simp [processChunk, chunkIncrements, joinList, String.append_empty]
    | malformed => simp [processChunk, chunkIncrements, ih]
    | payload err txt =>
      cases err with
      | some e => simp [processChunk, chunkIncrements, ih]
      | none =>
        cases txt with
        | some s =>
          simp [processChunk, chunkIncrements, joinList, ih, String.append_assoc]
        | none => simp [processChunk, chunkIncrements, ih]

/-- `joinList` distributes over list append. -/
theorem joinList_append (a b : List String) :
    joinList (a ++ b) = joinList a ++ joinList b := by
  induction a with
  | nil => simp [joinList, String.empty_append]
  | cons s rest ih => simp [joinList, ih, String.append_assoc]

/-- The read loop accumulates exactly the concatenation of the text
increments of the chunks it processes. -/
theorem runStream_eq_join (chunks : List (List Frame)) :
    runStream chunks = joinList (streamIncrements chunks) := by
  suffices h : ∀ ft, List.foldl processChunk ft chunks =
      ft ++ joinList (streamIncrements chunks) by
    have h0 := h ""
    simpa [runStream, String.empty_append] using h0
  induction chunks with
  | nil =>
    intro ft
    simp [streamIncrements, joinList, String.append_empty]
  | cons c rest ih =>
    intro ft
    simp only [List.foldl_cons]
    rw [processChunk_eq_join, ih]
    simp [streamIncrements, joinList_append, String.append_assoc]

/-- `selectFallbackModel` only rewrites the model selection and the banner:
on success, the transcript and current chat are untouched. -/
theorem selectFallbackModel_frame (st : AppState) (current : String)
    (now : Int) (st' : AppState)
    (h : selectFallbackModel st current now = .ok st') :
    st'.transcript = st.transcript ∧ st'.currentChatId = st.currentChatId := by
  unfold selectFallbackModel at h
  split at h
  · simp at h
  · cases h
    exact ⟨rfl, rfl⟩
  · cases h
    exact ⟨rfl, rfl⟩

/-- The 429 branch never touches the transcript or the current chat. -/
theorem quota429_frame (st : AppState) (mdl text : String)
    (images : List String) (body : String) (now : Int) :
    (quota429 st mdl text images body now).1.transcript = st.transcript ∧
    (quota429 st mdl text images body now).1.currentChatId =
      st.currentChatId := by
  unfold quota429
  simp only
  split
  · split
    next st' hok =>
      have hf := selectFallbackModel_frame _ _ _ _ hok
      exact ⟨hf.1, hf.2⟩
    next e herr => exact ⟨rfl, rfl⟩
  · split
    · split
      next st' hok =>
        have hf := selectFallbackModel_frame _ _ _ _ hok
        exact ⟨hf.1, hf.2⟩
      next e herr => exact ⟨rfl, rfl⟩
    · split
      · split
        · exact ⟨rfl, rfl⟩
        · exact ⟨rfl, rfl⟩
      · exact ⟨rfl, rfl⟩

/-- The `try` block never removes transcript entries: anything persisted
before it stays persisted. -/
theorem mem_tryBody_transcript (st2 : AppState) (mdl text : String)
    (images : List String) (net : NetOutcome) (now : Int) (x : ChatMessage)
    (hx : x ∈ st2.transcript) :
    x ∈ (tryBody st2 mdl text images net now).1.transcript := by
  cases net with
  | netFail n m => exact hx
  | httpError status body =>
    simp only [tryBody]
    split
    · rw [(quota429_frame st2 mdl text images body now).1]
      exact hx
    · exact hx
  | stream chunks abortAfter =>
    cases abortAfter with
    | some n => exact hx
    | none =>
      simp only [tryBody]
      split
      · simp only [List.mem_append]
        exact Or.inl hx
      · exact hx

/-- The `try` block never changes the current chat. -/
theorem tryBody_chatId (st2 : AppState) (mdl text : String)
    (images : List String) (net : NetOutcome) (now : Int) :
    (tryBody st2 mdl text images net now).1.currentChatId =
      st2.currentChatId := by
  cases net with
  | netFail n m => rfl
  | httpError status body =>
    simp only [tryBody]
    split
    · exact (quota429_frame st2 mdl text images body now).2
    · rfl
  | stream chunks abortAfter =>
    cases abortAfter with
    | some n => rfl
    | none =>
      simp only [tryBody]
      split
      · rfl
      · rfl

/-- The `catch` step never removes transcript entries. -/
theorem mem_applyCatch_transcript (st : AppState)
    (th : Option (String × String)) (x : ChatMessage)
    (hx : x ∈ st.transcript) :
    x ∈ (applyCatch st th).1.transcript := by
  rcases th with _ | ⟨n, m⟩
  · exact hx
  · simp only [applyCatch]
    split
    · simp only [List.mem_append]
      exact Or.inl hx
    · exact hx

/-- The `catch` step never changes the current chat. -/
theorem applyCatch_chatId (st : AppState) (th : Option (String × String)) :
    (applyCatch st th).1.currentChatId = st.currentChatId := by
  rcases th with _ | ⟨n, m⟩
  · rfl
  · simp only [applyCatch]
    split
    · rfl
    · rfl

/-- C2: under the preconditions of `sendMessage` (non-blank input or images,
no send in flight, a stored key, a usable model), the user message is
persisted, and persisted strictly before the fetch starts — the only event
that may precede the persist is the lazy chat creation — so the user
message is in the persisted transcript whatever the network outcome,
including an immediate network failure. -/
theorem C2_user_message_durable (st : AppState) (text : String)
    (images : List String) (mo : Option String) (net : NetOutcome) (now : Int)
    (h1 : ¬((jsTrim text = "" ∧ images = []) ∨ st.isLoading = true ∨
      st.hasApiKey = false))
    (h2 : ¬(jsStrFalsy mo = true ∧ st.selectedModel = "")) :
    (∃ pre evs, (sendMessage st text images mo net now).2 =
        pre ++ Event.persistUser (jsTrim text) images ::
          Event.fetchStart
            (if jsStrFalsy mo then st.selectedModel else mo.getD "") :: evs ∧
        (pre = [] ∨ pre = [Event.createChat])) ∧
    (⟨"user", jsTrim text, images⟩ : ChatMessage) ∈
      (sendMessage st text images mo net now).1.transcript := by
  unfold sendMessage
  rw [if_neg h1, if_neg h2]
  simp only
  cases hc : st.currentChatId with
  | none =>
    constructor
    · exact ⟨[Event.createChat], _, rfl, Or.inr rfl⟩
    · apply mem_applyCatch_transcript
      apply mem_tryBody_transcript
      simp
  | some id =>
    constructor
    · exact ⟨[], _, rfl, Or.inl rfl⟩
    · apply mem_applyCatch_transcript
      apply mem_tryBody_transcript
      simp

/-- Witness for C2: an immediate network failure right after submission
still leaves the user message in the persisted transcript. -/
theorem C2_user_message_durable_witness :
    (⟨"user", "hi", []⟩ : ChatMessage) ∈
      (sendMessage baseState "hi" [] none
        (.netFail "TypeError" "failed to fetch") 0).1.transcript :=
  (C2_user_message_durable baseState "hi" [] none
    (.netFail "TypeError" "failed to fetch") 0 (by decide) (by decide)).2

/-- An aborted send leaves exactly the user message behind it in the
transcript: the abort path persists nothing else. -/
theorem sendMessage_abort_transcript (st : AppState) (text : String)
    (images : List String) (mo : Option String) (chunks : List (List Frame))
    (n : Nat) (now : Int)
    (h1 : ¬((jsTrim text = "" ∧ images = []) ∨ st.isLoading = true ∨
      st.hasApiKey = false))
    (h2 : ¬(jsStrFalsy mo = true ∧ st.selectedModel = "")) :
    (sendMessage st text images mo (.stream chunks (some n)) now).1.transcript =
      st.transcript ++ [⟨"user", jsTrim text, images⟩] := by
  unfold sendMessage
  rw [if_neg h1, if_neg h2]
  simp only
  cases hc : st.currentChatId with
  | none => simp [tryBody, applyCatch]
  | some id => simp [tryBody, applyCatch]

/-- After a send under its preconditions a chat is always current. -/
theorem sendMessage_abort_chatId (st : AppState) (text : String)
    (images : List String) (mo : Option String) (chunks : List (List Frame))
    (n : Nat) (now : Int)
    (h1 : ¬((jsTrim text = "" ∧ images = []) ∨ st.isLoading = true ∨
      st.hasApiKey = false))
    (h2 : ¬(jsStrFalsy mo = true ∧ st.selectedModel = "")) :
    (sendMessage st text images mo (.stream chunks (some n)) now).1.currentChatId ≠
      none := by
  unfold sendMessage
  rw [if_neg h1, if_neg h2]
  simp only
  cases hc : st.currentChatId with
  | none => simp [tryBody, applyCatch]
  | some id => simp [tryBody, applyCatch, hc]

/-- C3 counterexample: cancelling after one chunk whose single increment is
the blank string `" "` discards the partial text instead of persisting it:
the final transcript holds only the user message, although the
concatenation of the increments received before cancellation is `" "`,
which is not empty — `handleStop` drops it because `streamingText.trim()`
is falsy. -/
theorem C3_counterexample :
    joinList (streamIncrements ([[Frame.payload none (some " ")]].take 1)) =
      " " ∧
    cancelledRun baseState "hi" [] none [[Frame.payload none (some " ")]] 1 0 =
      [⟨"user", "hi", []⟩] := by
  refine ⟨by decide, by decide⟩

/-- C3 as amended: on cancellation at the chunk boundary after `n` of the
stream's chunks, when the partial text accumulated from those `n` chunks is
non-blank after trimming, it is persisted as a completed assistant message
whose content is exactly the concatenation of the text increments received
before the cancellation; chunks after the cancellation point contribute
nothing, and the aborted send persists nothing further. -/
theorem C3_cancel_persists_partial (st : AppState) (text : String)
    (images : List String) (mo : Option String) (chunks : List (List Frame))
    (n : Nat) (now : Int)
    (h1 : ¬((jsTrim text = "" ∧ images = []) ∨ st.isLoading = true ∨
      st.hasApiKey = false))
    (h2 : ¬(jsStrFalsy mo = true ∧ st.selectedModel = ""))
    (hblank : jsTrim (runStream (chunks.take n)) ≠ "") :
    cancelledRun st text images mo chunks n now =
      st.transcript ++ [⟨"user", jsTrim text, images⟩,
        ⟨"model", joinList (streamIncrements (chunks.take n)), []⟩] := by
  unfold cancelledRun
  simp only
  unfold handleStop
  rw [if_pos ⟨hblank, sendMessage_abort_chatId st text images mo chunks n now h1 h2⟩]
  rw [sendMessage_abort_transcript st text images mo chunks n now h1 h2]
  rw [runStream_eq_join]
  simp [List.append_assoc]

/-- Witness for C3's amended statement: cancelling after 2 of 3 chunks
persists exactly `"abcd"`, the concatenation of the first two increments. -/
theorem C3_cancel_persists_partial_witness :
    cancelledRun baseState "hi" [] none
      [[Frame.payload none (some "ab")], [Frame.payload none (some "cd")],
        [Frame.payload none (some "ef")]] 2 0 =
      [⟨"user", "hi", []⟩, ⟨"model", "abcd", []⟩] := by
  have h := C3_cancel_persists_partial baseState "hi" [] none
    [[Frame.payload none (some "ab")], [Frame.payload none (some "cd")],
      [Frame.payload none (some "ef")]] 2 0 (by decide) (by decide) (by decide)
  rw [h]
  decide

/-- C7: the code does not do what the claim says.  On a stream carrying a
mid-stream error frame `data: {"error":"boom"}` followed by a text frame
`"x"` and `[DONE]`, the run persists only the user message and the
assistant text `"x"`, and raises no persist-error event: the
`throw new Error(parsed.error)` for the error frame lands in the very
`catch {}` that is meant to ignore JSON parse errors, so the error is
swallowed, streaming continues, and no synthetic assistant message with the
error text ever reaches the transcript. -/
theorem C7_midstream_error_frame_swallowed :
    (sendMessage baseState "hi" [] none
        (.stream [[Frame.payload (some "boom") none],
          [Frame.payload none (some "x")], [Frame.done]] none) 0).1.transcript =
      [⟨"user", "hi", []⟩, ⟨"model", "x", []⟩] ∧
    (sendMessage baseState "hi" [] none
        (.stream [[Frame.payload (some "boom") none],
          [Frame.payload none (some "x")], [Frame.done]] none) 0).2 =
      [Event.persistUser "hi" [], Event.fetchStart "m1",
        Event.persistAssistant "x"] := by
  refine ⟨by decide, by decide⟩

end Pollux
